import Mathlib

/-!
Verification of the CV skill-extraction search & clustering system.

The repository ships two React client files (`Page1.jsx`, `Cluster.jsx`).
The FastAPI engine (`backend/main.py`, `searches.py`, `kmeans.py` in the
README's project layout) is not part of the visible sources, so the engine
side is modelled from the specification; every such definition is marked
`Modelled from the spec:`.  The client-side definitions are translated
directly from the two JSX files.
-/

namespace CVApp

/-! ## Client model: `Page1.jsx` (SearchDashboard) -/

/-- The `algorithms` option list of `Page1.jsx`: the only values the
algorithm `Select` can put into the `algo` state (initial state is `bfs`,
also in this list), hence the only values `handleSearch` can send. -/
def algorithms : List String := ["bfs", "dfs", "hill"]

/-- The three algorithm names recognised by the search operation according
to the spec: bfs, dfs and hill_climb. -/
def recognizedSearchAlgorithms : List String := ["bfs", "dfs", "hill_climb"]

/-- Severity of the MUI snackbar notification. -/
inductive Severity where
  | info
  | success
  | error
  deriving DecidableEq, Repr

/-- The `snackbar` state object of the dashboards. -/
structure Snackbar where
  isOpen : Bool
  message : String
  severity : Severity
  deriving DecidableEq, Repr

/-- Outcome of a `fetch` as observed by the client: a network failure
(the promise rejects), an HTTP response with `res.ok = false`, or an OK
response carrying a decoded JSON value. -/
inductive FetchOutcome (α : Type) where
  | netError
  | httpError (status : Nat)
  | ok (value : α)
  deriving DecidableEq, Repr

/-- `res.ok` as the client tests it; a network failure is not OK either. -/
def FetchOutcome.isOk {α : Type} : FetchOutcome α → Bool
  | .ok _ => true
  | _ => false

/-- The component state of `SearchDashboard` that `handleSearch` touches:
`results` (displayed candidate ids), `totalStored`, and `snackbar`. -/
structure SearchPageState where
  results : List String
  totalStored : Nat
  snackbar : Snackbar
  deriving DecidableEq, Repr

/-- Snackbar set on the success path of `handleSearch`. -/
def successSnackbar : Snackbar :=
  { isOpen := true, message := "Search completed!", severity := .success }

/-- Snackbar set in the `catch` branch of `handleSearch`. -/
def errorSnackbar : Snackbar :=
  { isOpen := true, message := "Network error during search", severity := .error }

/-- `handleSearch` of `Page1.jsx` as a state transformer.  The search fetch
either throws (network error), throws via the explicit `!res.ok` check, or
yields data; `setResults(data)` runs before the follow-up total fetch, so a
failure of the total fetch leaves the new results in place but the old
total; any thrown error lands in the single `catch` that only sets the
error snackbar. -/
def handleSearch (st : SearchPageState) (searchRes : FetchOutcome (List String))
    (totalRes : FetchOutcome Nat) : SearchPageState :=
  match searchRes with
  | .ok data =>
    let st1 := { st with results := data }
    match totalRes with
    | .ok t => { st1 with totalStored := t, snackbar := successSnackbar }
    | _ => { st1 with snackbar := errorSnackbar }
  | _ => { st with snackbar := errorSnackbar }

/-! ## Client model: `Cluster.jsx` (ClusterManager) -/

/-- The `Dim Reduction` MenuItem values of `Cluster.jsx`: the only values
the `dimReduction` state can hold (initial state is `svd`, also in this
list), hence the only `dim_reduction` values `handleRunClustering` sends. -/
def dimReductionOptions : List String := ["svd", "None"]

/-- The two `dim_reduction` values recognised by `ClusterConfig` according
to the spec: svd and none. -/
def recognizedDimReductionValues : List String := ["svd", "none"]

/-- The clustering algorithm MenuItem values of `Cluster.jsx`. -/
def clusterAlgorithmOptions : List String := ["kmeans", "agglomerative", "dbscan"]

/-- The `grouped` memo of `Cluster.jsx`: `Object.entries(assignmentsMap)`
reduced by pushing each candidate id onto the bucket of its cluster label.
The assignments map is modelled as its entry list (candidate id, label);
a bucket is read off as a total function from label to id list, empty when
the label was never assigned (`acc[cid] || []`). -/
def grouped (m : List (String × Int)) : Int → List String :=
  m.foldl (fun acc p => fun c => if c = p.2 then acc c ++ [p.1] else acc c)
    (fun _ => [])

/-! ## Spec-modelled engine: profiles, relevance, candidate graph -/

/-- Modelled from the spec: a Profile Store record.  Ids are stable and
unique; the spec's string ids are modelled as naturals so that the
"ascending id" tie-break order is the natural order.  `skills` is the set
of normalized skill tokens; `skillFreqs` maps a skill to its occurrence
count in the candidate's source text. -/
structure CandidateProfile where
  id : Nat
  skills : List String
  skillFreqs : List (String × Nat)
  deriving DecidableEq, Repr

/-- `matchesAt pat l`: `pat` is an initial segment of `l`. -/
def matchesAt : List Char → List Char → Bool
  | [], _ => true
  | _ :: _, [] => false
  | p :: ps, c :: cs => p = c && matchesAt ps cs

/-- `hasSub pat l`: `pat` occurs contiguously somewhere in `l`. -/
def hasSub (pat : List Char) : List Char → Bool
  | [] => matchesAt pat []
  | c :: cs => matchesAt pat (c :: cs) || hasSub pat cs

/-- `strHasSub pat s`: the string `pat` is a substring of `s`. -/
def strHasSub (pat s : String) : Bool := hasSub pat.toList s.toList

/-- Modelled from the spec: per-query relevance score of a candidate — the
number of its skills equal to, or containing as a substring, the
(already normalized) keyword; an empty keyword gives every candidate a
zero score while still counting as a seed match. -/
def relevance (kw : String) (p : CandidateProfile) : Nat :=
  if kw = "" then 0
  else (p.skills.filter (fun s => s = kw || strHasSub kw s)).length

/-- Modelled from the spec: the implicit candidate-graph edge — two
candidates are neighbors when their skill sets intersect. -/
def sharesSkill (p q : CandidateProfile) : Bool :=
  p.skills.any (fun s => q.skills.contains s)

/-- Modelled from the spec: seed/neighbor processing order — descending
relevance score, ties broken by ascending candidate id. -/
def seedRank (kw : String) (a b : CandidateProfile) : Prop :=
  relevance kw b < relevance kw a ∨
    (relevance kw a = relevance kw b ∧ a.id ≤ b.id)

instance (kw : String) : DecidableRel (seedRank kw) := fun a b => by
  unfold seedRank
  exact inferInstance

/-- Modelled from the spec: the seed pool — all candidates with positive
relevance, or the whole corpus when no candidate matches. -/
def seedPool (corpus : List CandidateProfile) (kw : String) :
    List CandidateProfile :=
  let matched := corpus.filter (fun p => decide (0 < relevance kw p))
  if matched.isEmpty then corpus else matched

/-- Modelled from the spec: the seed pool ordered by descending score then
ascending id. -/
def rankedSeeds (corpus : List CandidateProfile) (kw : String) :
    List CandidateProfile :=
  List.insertionSort (seedRank kw) (seedPool corpus kw)

/-- Modelled from the spec: the not-yet-visited shared-skill neighbors of
`c`, ordered by descending relevance then ascending id before pushing. -/
def unvisitedNeighbors (corpus : List CandidateProfile) (kw : String)
    (visited : List Nat) (c : CandidateProfile) : List CandidateProfile :=
  List.insertionSort (seedRank kw)
    (corpus.filter (fun q => sharesSkill c q && !visited.contains q.id))

/-! ## Spec-modelled engine: BFS / DFS worklist traversal

The traversal keeps one list of visited ids in visitation order, which is
also the result (BFS/DFS append every visited candidate); it stops once
`count` ids are collected or the worklist is exhausted.  BFS appends the
ordered unvisited neighbors at the back of the worklist, DFS pushes them
on the front.  Recursion is on explicit fuel; `searchFuel` over-approximates
the total number of worklist pops (at most `|corpus|` visits, each pushing
at most `|corpus|` entries, plus the initial seeds). -/

def traverseLoop (corpus : List CandidateProfile) (kw : String) (count : Nat)
    (depthFirst : Bool) : Nat → List CandidateProfile → List Nat → List Nat
  | 0, _, acc => acc
  | _ + 1, [], acc => acc
  | fuel + 1, c :: rest, acc =>
    if count ≤ acc.length then acc
    else if c.id ∈ acc then traverseLoop corpus kw count depthFirst fuel rest acc
    else
      traverseLoop corpus kw count depthFirst fuel
        (if depthFirst then unvisitedNeighbors corpus kw (acc ++ [c.id]) c ++ rest
         else rest ++ unvisitedNeighbors corpus kw (acc ++ [c.id]) c)
        (acc ++ [c.id])

/-- Fuel bound for the worklist traversal. -/
def searchFuel (corpus : List CandidateProfile) : Nat :=
  (corpus.length + 1) * (corpus.length + 2)

/-! ## Spec-modelled engine: greedy hill-climbing -/

/-- Modelled from the spec: the unvisited neighbor of `c` with the strictly
highest relevance score among those strictly more relevant than `c`, ties
broken by ascending id; `none` at a local maximum. -/
def bestStrictNeighbor (corpus : List CandidateProfile) (kw : String)
    (visited : List Nat) (c : CandidateProfile) : Option CandidateProfile :=
  (List.insertionSort (seedRank kw)
    (corpus.filter (fun q =>
      sharesSkill c q && !visited.contains q.id &&
        decide (relevance kw c < relevance kw q)))).head?

/-- Modelled from the spec: one local climb — visit the current candidate,
then repeatedly move to the best strictly-improving unvisited neighbor,
stopping at a local maximum or once `count` results are collected.
Precondition at each call: the current candidate is unvisited. -/
def climbLoop (corpus : List CandidateProfile) (kw : String) (count : Nat) :
    Nat → CandidateProfile → List Nat → List Nat
  | 0, _, acc => acc
  | fuel + 1, c, acc =>
    if count ≤ acc.length then acc
    else
      match bestStrictNeighbor corpus kw (acc ++ [c.id]) c with
      | none => acc ++ [c.id]
      | some nxt => climbLoop corpus kw count fuel nxt (acc ++ [c.id])

/-- Modelled from the spec: the next climb seed — the unvisited candidate
with the highest remaining relevance score, ties by ascending id. -/
def nextSeed (corpus : List CandidateProfile) (kw : String)
    (visited : List Nat) : Option CandidateProfile :=
  (List.insertionSort (seedRank kw)
    (corpus.filter (fun q => !visited.contains q.id))).head?

/-- Modelled from the spec: run climbs from successive seeds until `count`
results are collected or no unvisited candidate remains. -/
def hillLoop (corpus : List CandidateProfile) (kw : String) (count : Nat) :
    Nat → List Nat → List Nat
  | 0, acc => acc
  | fuel + 1, acc =>
    if count ≤ acc.length then acc
    else
      match nextSeed corpus kw acc with
      | none => acc
      | some s =>
        hillLoop corpus kw count fuel
          (climbLoop corpus kw count (corpus.length + 1) s acc)

/-! ## Spec-modelled engine: the search operation -/

/-- The three traversal strategies of the search engine. -/
inductive SearchAlgo where
  | bfs
  | dfs
  | hill_climb
  deriving DecidableEq, Repr

/-- The error kinds of §7. -/
inductive EngineError where
  | invalidAlgorithm
  | invalidParameter
  | emptyVocabulary
  | clusteringUnderdetermined
  | clusteringInProgress
  | noActiveClustering
  deriving DecidableEq, Repr

/-- Modelled from the spec: boundary validation of the algorithm name —
only the three recognized values parse. -/
def parseSearchAlgo (s : String) : Option SearchAlgo :=
  if s = "bfs" then some .bfs
  else if s = "dfs" then some .dfs
  else if s = "hill_climb" then some .hill_climb
  else none

/-- Modelled from the spec: dispatch of a validated search. -/
def runSearchAlgo (corpus : List CandidateProfile) (a : SearchAlgo)
    (kw : String) (count : Nat) : List Nat :=
  match a with
  | .bfs => traverseLoop corpus kw count false (searchFuel corpus)
      (rankedSeeds corpus kw) []
  | .dfs => traverseLoop corpus kw count true (searchFuel corpus)
      (rankedSeeds corpus kw) []
  | .hill_climb => hillLoop corpus kw count (corpus.length + 1) []

/-- Modelled from the spec: `search(query) → SearchResult`, failing with
`InvalidAlgorithm` on an unrecognized name and `InvalidParameter` on a
non-positive count. -/
def searchOp (corpus : List CandidateProfile) (algoStr kw : String)
    (count : Int) : Except EngineError (List Nat) :=
  match parseSearchAlgo algoStr with
  | none => .error .invalidAlgorithm
  | some a =>
    if count < 1 then .error .invalidParameter
    else .ok (runSearchAlgo corpus a kw count.toNat)

/-! ## Spec-modelled engine: Feature Builder -/

/-- Occurrence count of skill `s` in profile `p` (0 when absent). -/
def lookupFreq (p : CandidateProfile) (s : String) : Nat :=
  match p.skillFreqs.lookup s with
  | some n => n
  | none => 0

/-- Corpus-wide occurrence count of a skill. -/
def corpusSkillCount (corpus : List CandidateProfile) (s : String) : Nat :=
  (corpus.map (fun p => lookupFreq p s)).sum

/-- Modelled from the spec: the filtered vocabulary — every distinct skill
whose corpus-wide occurrence count reaches `minFreq`. -/
def vocabulary (corpus : List CandidateProfile) (minFreq : Nat) : List String :=
  ((corpus.map (fun p => p.skills)).flatten).dedup.filter
    (fun s => minFreq ≤ corpusSkillCount corpus s)

/-- Frequency vector of a candidate over the filtered vocabulary. -/
def featureRow (vocab : List String) (p : CandidateProfile) : List ℚ :=
  vocab.map (fun s => (lookupFreq p s : ℚ))

/-- The unprojected feature matrix, one row per candidate. -/
def rawFeatureRows (corpus : List CandidateProfile) (vocab : List String) :
    List (List ℚ) :=
  corpus.map (featureRow vocab)

/-- Modelled from the spec: the adjusted component count — the request
clamped to at most `min(candidates, vocabulary) − 1`. -/
def adjustedComponents (nCand nVocab req : Nat) : Nat :=
  min req (min nCand nVocab - 1)

/-- Modelled from the spec: the optional dimensionality-reduction step of
the Feature Builder.  The backend's truncated SVD is not part of the
visible sources and exact singular directions are not rationally
representable; the projection onto the top adjusted number of directions is
modelled as truncation of each row to that many coordinates, which is
faithful to the specified shape, clamping, and determinism behaviour (no
claim under verification depends on the projected values). -/
def applyDimReduction (dimRed : String) (comps : Nat)
    (rows : List (List ℚ)) (nVocab : Nat) : List (List ℚ) :=
  if dimRed = "svd" then
    rows.map (fun r => r.take (adjustedComponents rows.length nVocab comps))
  else rows

/-! ## Spec-modelled engine: Clustering Engine -/

/-- Squared euclidean distance of two feature vectors. -/
def sqDist (u v : List ℚ) : ℚ :=
  (List.zipWith (fun a b => (a - b) * (a - b)) u v).sum

/-- Index of the first minimum of a list of values (accumulator form). -/
def argminIdxAux : List ℚ → Nat → Nat → ℚ → Nat
  | [], _, best, _ => best
  | x :: xs, i, best, bv =>
    if x < bv then argminIdxAux xs (i + 1) i x
    else argminIdxAux xs (i + 1) best bv

/-- Index of the first minimum of a list of values (0 on empty input). -/
def argminIdx : List ℚ → Nat
  | [] => 0
  | x :: xs => argminIdxAux xs 1 0 x

/-- Index of the nearest centroid, ties to the lowest index. -/
def nearestCentroid (cents : List (List ℚ)) (v : List ℚ) : Nat :=
  argminIdx (cents.map (fun c => sqDist c v))

/-- Modelled from the spec: the fixed, documented k-means initialization
seed that makes repeated runs reproducible. -/
def fixedKMeansSeed : Nat := 42

/-- A linear congruential step (the documented deterministic generator). -/
def lcg (s : Nat) : Nat := (1103515245 * s + 12345) % 2147483648

/-- `n`-fold iteration of the generator. -/
def lcgIterate : Nat → Nat → Nat
  | 0, s => s
  | n + 1, s => lcg (lcgIterate n s)

/-- Deterministic initial centroids: `k` rows picked by the seeded
generator. -/
def initCentroids (seed k : Nat) (rows : List (List ℚ)) : List (List ℚ) :=
  (List.range k).map (fun i => rows.getD (lcgIterate (i + 1) seed % rows.length) [])

/-- Pointwise sum of two vectors. -/
def vecSum (u v : List ℚ) : List ℚ := List.zipWith (· + ·) u v

/-- Scalar multiple of a vector. -/
def vecScale (q : ℚ) (v : List ℚ) : List ℚ := v.map (fun x => q * x)

/-- Mean of a set of rows (`dim`-dimensional zero vector on empty input). -/
def meanRows (dim : Nat) (rs : List (List ℚ)) : List ℚ :=
  match rs with
  | [] => List.replicate dim 0
  | _ => vecScale (1 / (rs.length : ℚ)) (rs.foldl vecSum (List.replicate dim 0))

/-- Rows currently assigned to centroid `j`. -/
def membersOf (assign : List Nat) (rows : List (List ℚ)) (j : Nat) :
    List (List ℚ) :=
  ((assign.zip rows).filter (fun p => p.1 = j)).map Prod.snd

/-- Lloyd centroid update; a centroid with no members keeps its position. -/
def updateCentroids (dim : Nat) (rows : List (List ℚ)) (assign : List Nat)
    (cents : List (List ℚ)) : List (List ℚ) :=
  (List.range cents.length).map (fun j =>
    match membersOf assign rows j with
    | [] => cents.getD j (List.replicate dim 0)
    | ms => meanRows dim ms)

/-- Lloyd iterations (fixed fuel), ending in a final assignment pass. -/
def kmeansIter (dim : Nat) (rows : List (List ℚ)) :
    Nat → List (List ℚ) → List Nat
  | 0, cents => rows.map (nearestCentroid cents)
  | n + 1, cents =>
    kmeansIter dim rows n
      (updateCentroids dim rows (rows.map (nearestCentroid cents)) cents)

/-- The fixed Lloyd iteration budget. -/
def kmeansIterations : Nat := 20

/-- Modelled from the spec: k-means assignment from a given seed. -/
def kmeansAssignWith (seed k dim : Nat) (rows : List (List ℚ)) : List Nat :=
  kmeansIter dim rows kmeansIterations (initCentroids seed k rows)

/-- Centroid of an agglomerative cluster given by row indices. -/
def clusterCentroid (dim : Nat) (rows : List (List ℚ)) (members : List Nat) :
    List ℚ :=
  meanRows dim (members.map (fun i => rows.getD i (List.replicate dim 0)))

/-- All index pairs `(i, j)` with `i < j < n`, in lexicographic order. -/
def allPairs (n : Nat) : List (Nat × Nat) :=
  ((List.range n).map (fun i =>
    ((List.range n).filter (fun j => i < j)).map (fun j => (i, j)))).flatten

/-- The closest pair of clusters by centroid distance, ties to the
lexicographically smallest pair. -/
def bestMerge (dim : Nat) (rows : List (List ℚ)) (clusters : List (List Nat)) :
    Option (Nat × Nat) :=
  match allPairs clusters.length with
  | [] => none
  | ps =>
    some (ps.getD
      (argminIdx (ps.map (fun p =>
        sqDist (clusterCentroid dim rows (clusters.getD p.1 []))
          (clusterCentroid dim rows (clusters.getD p.2 [])))))
      (0, 0))

/-- Merge cluster `j` into cluster `i` (`i < j`), dropping slot `j`. -/
def mergeClusters (clusters : List (List Nat)) (i j : Nat) :
    List (List Nat) :=
  clusters.enum.filterMap (fun p =>
    if p.1 = j then none
    else if p.1 = i then some (p.2 ++ clusters.getD j [])
    else some p.2)

/-- Modelled from the spec: bottom-up merging with a fixed minimum-variance
style linkage, cut once `k` clusters remain. -/
def aggloLoop (dim : Nat) (rows : List (List ℚ)) (k : Nat) :
    Nat → List (List Nat) → List (List Nat)
  | 0, cl => cl
  | fuel + 1, cl =>
    if cl.length ≤ k then cl
    else
      match bestMerge dim rows cl with
      | none => cl
      | some p => aggloLoop dim rows k fuel (mergeClusters cl p.1 p.2)

/-- Row-index assignment read off from a cluster list. -/
def assignFromClusters (n : Nat) (clusters : List (List Nat)) : List Nat :=
  (List.range n).map (fun r => (clusters.findIdx? (fun c => c.contains r)).getD 0)

/-- Modelled from the spec: agglomerative assignment for `k` clusters. -/
def agglomerativeAssign (k dim : Nat) (rows : List (List ℚ)) : List Nat :=
  assignFromClusters rows.length
    (aggloLoop dim rows k rows.length ((List.range rows.length).map (fun i => [i])))

/-- Indices within `eps` distance of index `i` (including `i` itself). -/
def epsNeighbors (rows : List (List ℚ)) (eps : ℚ) (i : Nat) : List Nat :=
  (List.range rows.length).filter
    (fun j => decide (sqDist (rows.getD i []) (rows.getD j []) ≤ eps * eps))

/-- A core point has at least `minS` neighbors within `eps`. -/
def isCore (rows : List (List ℚ)) (eps : ℚ) (minS : Nat) (i : Nat) : Bool :=
  minS ≤ (epsNeighbors rows eps i).length

/-- Grow a set of core points by direct eps-reachability (fueled closure). -/
def growCore (rows : List (List ℚ)) (eps : ℚ) (minS : Nat) :
    Nat → List Nat → List Nat
  | 0, s => s
  | fuel + 1, s =>
    match (List.range rows.length).filter (fun j =>
        isCore rows eps minS j && !s.contains j &&
          s.any (fun i => isCore rows eps minS i && (epsNeighbors rows eps i).contains j)) with
    | [] => s
    | ext => growCore rows eps minS fuel (s ++ ext)

/-- One pass of core-cluster formation: start a new component at each core
point not yet covered. -/
def dbscanClustersStep (rows : List (List ℚ)) (eps : ℚ) (minS : Nat)
    (acc : List (List Nat)) (i : Nat) : List (List Nat) :=
  if isCore rows eps minS i && !acc.any (fun c => c.contains i) then
    acc ++ [growCore rows eps minS rows.length [i]]
  else acc

/-- The density-connected components of core points, in index order. -/
def dbscanCoreClusters (rows : List (List ℚ)) (eps : ℚ) (minS : Nat) :
    List (List Nat) :=
  (List.range rows.length).foldl (dbscanClustersStep rows eps minS) []

/-- Modelled from the spec: DBSCAN assignment — a point takes the label of
the first component holding a core point within `eps` of it, and the noise
label `-1` when density-reachable from no core point. -/
def dbscanAssign (rows : List (List ℚ)) (eps : ℚ) (minS : Nat) : List Int :=
  (List.range rows.length).map (fun p =>
    match (dbscanCoreClusters rows eps minS).findIdx?
        (fun c => c.any (fun i => (epsNeighbors rows eps i).contains p)) with
    | some k => (k : Int)
    | none => -1)

/-- The three clustering strategies. -/
inductive ClusterAlgo where
  | kmeans
  | agglomerative
  | dbscan
  deriving DecidableEq, Repr

/-- Modelled from the spec: boundary validation of the clustering algorithm
name. -/
def parseClusterAlgo (s : String) : Option ClusterAlgo :=
  if s = "kmeans" then some .kmeans
  else if s = "agglomerative" then some .agglomerative
  else if s = "dbscan" then some .dbscan
  else none

/-- The documented default cluster count. -/
def defaultNClusters : Nat := 5

/-- Modelled from the spec: the cluster operation on a feature matrix.
`runSeed` stands for whatever ambient per-run entropy a re-run could
differ in; k-means draws its initialization from the fixed documented
seed instead, and the other two strategies are seedless, so the parameter
is deliberately never consulted. -/
def clusterAssignOf (algo : ClusterAlgo) (k : Nat) (eps : ℚ) (minS : Nat)
    (rows : List (List ℚ)) (runSeed : Nat) : List Int :=
  match algo with
  | .kmeans =>
    (kmeansAssignWith fixedKMeansSeed k (rows.headD []).length rows).map Int.ofNat
  | .agglomerative =>
    (agglomerativeAssign k (rows.headD []).length rows).map Int.ofNat
  | .dbscan => dbscanAssign rows eps minS

/-! ## Spec-modelled engine: cluster summary and full cluster run -/

/-- The distinct labels of a cluster assignment, in first-seen order. -/
def assignmentLabels (assignment : List (Nat × Int)) : List Int :=
  ((assignment.map Prod.snd).dedup)

/-- The candidate ids assigned to label `c`, in assignment order. -/
def clusterMembers (assignment : List (Nat × Int)) (c : Int) : List Nat :=
  (assignment.filter (fun p => p.2 = c)).map Prod.fst

/-- Ranking of vocabulary skills by descending in-cluster score. -/
def scoreRank (a b : String × Nat) : Prop := b.2 ≤ a.2

instance : DecidableRel scoreRank := fun a b => by
  unfold scoreRank
  exact inferInstance

/-- Total in-cluster occurrence of skill `s` over the member candidates. -/
def skillScoreIn (corpus : List CandidateProfile) (members : List Nat)
    (s : String) : Nat :=
  ((corpus.filter (fun p => members.contains p.id)).map
    (fun p => lookupFreq p s)).sum

/-- Modelled from the spec: the top-5 vocabulary skills of a cluster by
total in-cluster occurrence. -/
def topSkills (corpus : List CandidateProfile) (vocab : List String)
    (members : List Nat) : List (String × Nat) :=
  (List.insertionSort scoreRank
    (vocab.map (fun s => (s, skillScoreIn corpus members s)))).take 5

/-- Modelled from the spec: the cluster summary — per non-noise label its
size and top skills. -/
def buildSummary (corpus : List CandidateProfile) (vocab : List String)
    (assignment : List (Nat × Int)) :
    List (Int × Nat × List (String × Nat)) :=
  ((assignmentLabels assignment).filter (fun c => c ≠ -1)).map (fun c =>
    (c, (clusterMembers assignment c).length,
      topSkills corpus vocab (clusterMembers assignment c)))

/-- Raw `run clustering` request parameters as the client sends them. -/
structure RawClusterConfig where
  algorithm : String
  n_clusters : Option Int
  min_skill_freq : Int
  dim_reduction : String
  dim_reduction_components : Int
  dbscan_eps : ℚ
  dbscan_min_samples : Int
  deriving DecidableEq, Repr

/-- Modelled from the spec: boundary parameter validation — positive
thresholds, eps and sample counts, a recognized `dim_reduction` value, and
a positive `n_clusters` when one is supplied. -/
def configValid (cfg : RawClusterConfig) : Bool :=
  decide (1 ≤ cfg.min_skill_freq) &&
  decide (1 ≤ cfg.dim_reduction_components) &&
  decide (0 < cfg.dbscan_eps) &&
  decide (1 ≤ cfg.dbscan_min_samples) &&
  (cfg.dim_reduction = "svd" || cfg.dim_reduction = "none") &&
  (match cfg.n_clusters with
   | none => true
   | some k => decide (1 ≤ k))

/-- Modelled from the spec: a full clustering run — validate, build
features, optionally reduce, cluster, summarize.  All validation precedes
any computed result; the function returns the assignment/summary pair to
be committed, or the error that aborted the run. -/
def clusterRunResult (corpus : List CandidateProfile) (cfg : RawClusterConfig)
    (runSeed : Nat) :
    Except EngineError
      (List (Nat × Int) × List (Int × Nat × List (String × Nat))) :=
  match parseClusterAlgo cfg.algorithm with
  | none => .error .invalidAlgorithm
  | some algo =>
    if !configValid cfg then .error .invalidParameter
    else
      let vocab := vocabulary corpus cfg.min_skill_freq.toNat
      if vocab.isEmpty then .error .emptyVocabulary
      else if decide (algo ≠ ClusterAlgo.dbscan) &&
          (match cfg.n_clusters with
           | some k => decide (corpus.length < k.toNat)
           | none => false) then .error .clusteringUnderdetermined
      else
        let kk := (cfg.n_clusters.map Int.toNat).getD defaultNClusters
        let rows := applyDimReduction cfg.dim_reduction
          cfg.dim_reduction_components.toNat (rawFeatureRows corpus vocab)
          vocab.length
        let labels := clusterAssignOf algo kk cfg.dbscan_eps
          cfg.dbscan_min_samples.toNat rows runSeed
        let assignment := (corpus.map (fun p => p.id)).zip labels
        .ok (assignment, buildSummary corpus vocab assignment)

/-! ## Spec-modelled engine: Selection Allocator -/

/-- The members of cluster `c` sorted by ascending id. -/
def sortedMembers (assignment : List (Nat × Int)) (c : Int) : List Nat :=
  List.insertionSort (fun a b => a ≤ b) (clusterMembers assignment c)

/-- Modelled from the spec: the per-label pick — the first
`min(requested, cluster_size)` member ids in ascending order; an absent
label or a non-positive request yields the empty list. -/
def selectFor (assignment : List (Nat × Int)) (c : Int) (k : Int) :
    List Nat :=
  (sortedMembers assignment c).take k.toNat

/-- Modelled from the spec: `select(requested_counts) → SelectionResult`. -/
def selectOp (assignment : List (Nat × Int)) (counts : List (Int × Int)) :
    List (Int × List Nat) :=
  counts.map (fun p => (p.1, selectFor assignment p.1 p.2))

/-! ## Spec-modelled engine: Result Store and operation semantics -/

/-- Modelled from the spec: the process-wide Result Store — the distinct
candidates ever surfaced by search (in first-seen order), the latest
search result, and the latest assignment / summary / selection snapshots. -/
structure ResultStore where
  seenIds : List Nat
  latestSearch : List Nat
  latestAssignment : Option (List (Nat × Int))
  latestSummary : Option (List (Int × Nat × List (String × Nat)))
  latestSelection : Option (List (Int × List Nat))
  deriving DecidableEq, Repr

/-- The Result Store before any run. -/
def initialStore : ResultStore :=
  { seenIds := [], latestSearch := [], latestAssignment := none,
    latestSummary := none, latestSelection := none }

/-- Append the ids of `xs` not seen before, keeping first-seen order. -/
def insertNew (seen : List Nat) (xs : List Nat) : List Nat :=
  xs.foldl (fun s x => if x ∈ s then s else s ++ [x]) seen

/-- The total-count view: number of distinct candidates ever surfaced. -/
def totalCount (st : ResultStore) : Nat := st.seenIds.length

/-- Successful operation outputs. -/
inductive EngineOutput where
  | searchOut (ids : List Nat)
  | clusterDone
  | selectionOut (sel : List (Int × List Nat))
  | totalOut (n : Nat)
  deriving DecidableEq, Repr

/-- The operations of the external interface that touch the Result Store.
`contended` on a cluster run abstracts the mutual-exclusion check: it is
true exactly when another cluster run holds the cluster slot at entry, in
which case the run is rejected with `ClusteringInProgress`. -/
inductive Op where
  | search (algoStr kw : String) (count : Int)
  | runClustering (contended : Bool) (cfg : RawClusterConfig)
  | submitSelection (counts : List (Int × Int))
  | totalQuery
  deriving DecidableEq, Repr

/-- Modelled from the spec: one operation against the Result Store.  The
returned store is the committed snapshot: every error branch hands back
the incoming store untouched, and a successful run swaps in its complete
result atomically. -/
def applyOp (corpus : List CandidateProfile) (st : ResultStore) (op : Op) :
    ResultStore × Except EngineError EngineOutput :=
  match op with
  | .search algoStr kw count =>
    match searchOp corpus algoStr kw count with
    | .error e => (st, .error e)
    | .ok r =>
      ({ st with latestSearch := r, seenIds := insertNew st.seenIds r },
        .ok (.searchOut r))
  | .runClustering contended cfg =>
    if contended then (st, .error .clusteringInProgress)
    else
      match clusterRunResult corpus cfg 0 with
      | .error e => (st, .error e)
      | .ok res =>
        ({ st with latestAssignment := some res.1, latestSummary := some res.2 },
          .ok .clusterDone)
  | .submitSelection counts =>
    match st.latestAssignment with
    | none => (st, .error .noActiveClustering)
    | some assignment =>
      ({ st with latestSelection := some (selectOp assignment counts) },
        .ok (.selectionOut (selectOp assignment counts)))
  | .totalQuery => (st, .ok (.totalOut st.seenIds.length))

/-- The store left behind by an operation (its committed snapshot). -/
def runOp (corpus : List CandidateProfile) (st : ResultStore) (op : Op) :
    ResultStore :=
  (applyOp corpus st op).1

/-- The store after a whole operation trace from the initial store. -/
def runTrace (corpus : List CandidateProfile) (ops : List Op) : ResultStore :=
  ops.foldl (runOp corpus) initialStore

/-- The ids a single operation surfaces through search (empty for failed
searches and for non-search operations). -/
def searchReturned (corpus : List CandidateProfile) : Op → List Nat
  | .search algoStr kw count =>
    match searchOp corpus algoStr kw count with
    | .ok r => r
    | .error _ => []
  | _ => []

/-! ## Helper lemmas: the client `grouped` derivation -/

/-- Unfolding of the `grouped` fold against an arbitrary accumulator. -/
theorem grouped_foldl_eq (m : List (String × Int))
    (acc : Int → List String) (c : Int) :
    (m.foldl (fun acc p => fun c => if c = p.2 then acc c ++ [p.1] else acc c) acc) c =
      acc c ++ (m.filter (fun p => p.2 = c)).map Prod.fst := by
  induction m generalizing acc with
  | nil => simp
  | cons p t ih =>
    simp only [List.foldl_cons, ih]
    by_cases hc : p.2 = c
    · simp [hc, List.filter_cons]
    · have hc2 : ¬c = p.2 := fun h => hc h.symm
      simp [hc, hc2, List.filter_cons]

/-- `grouped m c` is exactly the ids assigned to label `c`, in map order. -/
theorem grouped_eq_filter (m : List (String × Int)) (c : Int) :
    grouped m c = (m.filter (fun p => p.2 = c)).map Prod.fst := by
  simpa using grouped_foldl_eq m (fun _ => []) c

/-- Membership in a bucket coincides with membership of the entry. -/
theorem mem_grouped_iff (m : List (String × Int)) (c : Int) (i : String) :
    i ∈ grouped m c ↔ (i, c) ∈ m := by
  rw [grouped_eq_filter]
  constructor
  · intro h
    rcases List.mem_map.mp h with ⟨p, hp, hfst⟩
    rcases List.mem_filter.mp hp with ⟨hm, hc⟩
    have : p = (i, c) := by
      rcases p with ⟨a, b⟩
      simp only at hfst
      simp only [decide_eq_true_eq] at hc
      simp [hfst, hc]
    simpa [this] using hm
  · intro h
    exact List.mem_map.mpr ⟨(i, c), List.mem_filter.mpr ⟨h, by simp⟩, rfl⟩

/-- With duplicate-free keys, a key determines its value. -/
theorem snd_eq_of_nodup_keys {α β : Type} (m : List (α × β))
    (hnd : (m.map Prod.fst).Nodup) (a : α) (b1 b2 : β)
    (h1 : (a, b1) ∈ m) (h2 : (a, b2) ∈ m) : b1 = b2 := by
  induction m with
  | nil => cases h1
  | cons p t ih =>
    simp only [List.map_cons, List.nodup_cons] at hnd
    rcases List.mem_cons.mp h1 with he1 | ht1
    · rcases List.mem_cons.mp h2 with he2 | ht2
      · rw [← he1] at he2
        exact congrArg Prod.snd he2.symm
      · exfalso
        exact hnd.1 (List.mem_map.mpr ⟨(a, b2), ht2, by rw [← he1]⟩)
    · rcases List.mem_cons.mp h2 with he2 | ht2
      · exfalso
        exact hnd.1 (List.mem_map.mpr ⟨(a, b1), ht1, by rw [← he2]⟩)
      · exact ih hnd.2 ht1 ht2

/-! ## Claim theorems: client side -/

/-- C1, counterexample: the claim "every algorithm value the client can
submit is one of the three recognized values bfs, dfs, hill_climb" fails at
the concrete option `hill`, which the `algorithms` list of `Page1.jsx`
offers but which is not among the recognized values. -/
theorem client_can_send_unrecognized_algo :
    "hill" ∈ algorithms ∧ "hill" ∉ recognizedSearchAlgorithms := by
  decide

/-- C1 (corrected): every algorithm value the client can submit is one of
bfs, dfs, hill; the first two are among the spec's recognized values, while
hill is not `hill_climb` and so fails the InvalidAlgorithm validation. -/
theorem client_algo_values (a : String) (h : a ∈ algorithms) :
    ((a = "bfs" ∨ a = "dfs") ∧ a ∈ recognizedSearchAlgorithms) ∨
      (a = "hill" ∧ a ∉ recognizedSearchAlgorithms) := by
  simp only [algorithms, List.mem_cons, List.not_mem_nil, or_false] at h
  rcases h with rfl | rfl | rfl <;> decide

/-- Instantiation of the corrected C1 statement at the bfs option. -/
theorem client_algo_values_at_bfs :
    (("bfs" = "bfs" ∨ "bfs" = "dfs") ∧ "bfs" ∈ recognizedSearchAlgorithms) ∨
      ("bfs" = "hill" ∧ "bfs" ∉ recognizedSearchAlgorithms) :=
  client_algo_values "bfs" (by decide)

/-- C2, counterexample: the claim "the dim_reduction parameter is one of
the two recognized ClusterConfig values svd or none" fails at the concrete
MenuItem value `None` of `Cluster.jsx`, which differs from the recognized
lowercase `none`. -/
theorem client_can_send_unrecognized_dim_reduction :
    "None" ∈ dimReductionOptions ∧ "None" ∉ recognizedDimReductionValues := by
  decide

/-- C2 (corrected): every dim_reduction value the client can submit is svd
or None; svd is recognized, while the capitalized None is not the
recognized value none. -/
theorem client_dim_reduction_values (d : String) (h : d ∈ dimReductionOptions) :
    (d = "svd" ∧ d ∈ recognizedDimReductionValues) ∨
      (d = "None" ∧ d ∉ recognizedDimReductionValues) := by
  simp only [dimReductionOptions, List.mem_cons, List.not_mem_nil, or_false] at h
  rcases h with rfl | rfl <;> decide

/-- Instantiation of the corrected C2 statement at the svd option. -/
theorem client_dim_reduction_values_at_svd :
    ("svd" = "svd" ∧ "svd" ∈ recognizedDimReductionValues) ∨
      ("svd" = "None" ∧ "svd" ∉ recognizedDimReductionValues) :=
  client_dim_reduction_values "svd" (by decide)

/-- C9: when the search fetch fails or returns a non-ok status,
`handleSearch` only sets the error snackbar — the displayed results and the
stored total are unchanged; the results are replaced only when the search
response is ok, and the total only when both fetches are ok. -/
theorem handleSearch_failure_preserves_state (st : SearchPageState)
    (sr : FetchOutcome (List String)) (tr : FetchOutcome Nat)
    (h : sr.isOk = false) :
    handleSearch st sr tr = { st with snackbar := errorSnackbar } := by
  cases sr with
  | netError => rfl
  | httpError s => rfl
  | ok d => simp [FetchOutcome.isOk] at h

/-- Instantiation of C9 at a concrete state and a network failure. -/
theorem handleSearch_failure_preserves_state_concrete :
    handleSearch ⟨["cv1"], 7, ⟨false, "", Severity.info⟩⟩
        FetchOutcome.netError (FetchOutcome.ok 9) =
      { results := ["cv1"], totalStored := 7, snackbar := errorSnackbar } :=
  handleSearch_failure_preserves_state ⟨["cv1"], 7, ⟨false, "", Severity.info⟩⟩
    FetchOutcome.netError (FetchOutcome.ok 9) rfl

/-- C10: for an assignments map with duplicate-free candidate ids, the
client's `grouped` derivation is a partition — each mapped id lands in the
bucket of its own label and in no other bucket, and each bucket holds
exactly the ids mapped to its label. -/
theorem grouped_is_partition (m : List (String × Int))
    (hnd : (m.map Prod.fst).Nodup) :
    (∀ p ∈ m, p.1 ∈ grouped m p.2 ∧ ∀ c, p.1 ∈ grouped m c → c = p.2) ∧
      (∀ c i, i ∈ grouped m c ↔ (i, c) ∈ m) := by
  refine ⟨fun p hp => ⟨?_, fun c hc => ?_⟩, fun c i => mem_grouped_iff m c i⟩
  · exact (mem_grouped_iff m p.2 p.1).mpr (by simpa using hp)
  · have hm : (p.1, c) ∈ m := (mem_grouped_iff m c p.1).mp hc
    exact snd_eq_of_nodup_keys m hnd p.1 c p.2 hm (by simpa using hp)

/-- Instantiation of C10 at a concrete two-entry assignments map. -/
theorem grouped_is_partition_concrete :
    "cv1" ∈ grouped [("cv1", 0), ("cv2", 1)] 0 :=
  (((grouped_is_partition [("cv1", 0), ("cv2", 1)] (by decide)).1
    ("cv1", 0) (by decide)).1)

/-! ## Claim theorems: Selection Allocator, clustering determinism,
transactional failure -/

/-- C4: for any assignment and any requested label and count, the
per-label pick has length `min(requested, cluster_size)`, is sorted by
ascending id, only contains ids assigned to that label, and degenerates to
the empty list on a non-positive request or an absent label. -/
theorem select_per_cluster_spec (assignment : List (Nat × Int)) (c k : Int) :
    (selectFor assignment c k).length =
        min k.toNat (clusterMembers assignment c).length ∧
      List.Sorted (· ≤ ·) (selectFor assignment c k) ∧
      (∀ i ∈ selectFor assignment c k, (i, c) ∈ assignment) ∧
      (k ≤ 0 → selectFor assignment c k = []) ∧
      ((∀ p ∈ assignment, p.2 ≠ c) → selectFor assignment c k = []) := by
  refine ⟨?_, ?_, ?_, ?_, ?_⟩
  · rw [selectFor, List.length_take, sortedMembers,
      (List.perm_insertionSort _ _).length_eq]
  · exact List.Pairwise.sublist (List.take_sublist _ _)
      (List.sorted_insertionSort _ _)
  · intro i hi
    have h1 : i ∈ sortedMembers assignment c :=
      (List.take_sublist _ _).subset hi
    have h2 : i ∈ clusterMembers assignment c :=
      (List.perm_insertionSort _ _).mem_iff.mp h1
    rcases List.mem_map.mp h2 with ⟨p, hp, hfst⟩
    rcases List.mem_filter.mp hp with ⟨hm, hc⟩
    have hpc : p = (i, c) := by
      rcases p with ⟨x, y⟩
      simp only at hfst
      simp only [decide_eq_true_eq] at hc
      simp [hfst, hc]
    simpa [hpc] using hm
  · intro hk
    simp [selectFor, Int.toNat_of_nonpos hk]
  · intro habsent
    have hm : clusterMembers assignment c = [] := by
      simp only [clusterMembers, List.map_eq_nil_iff, List.filter_eq_nil_iff]
      intro p hp
      simpa using habsent p hp
    simp [selectFor, sortedMembers, hm, List.insertionSort]

/-- Instantiation of C4 at a concrete assignment: cluster 0 has members
4, 2, 1 and a request of 2 picks exactly min(2, 3) = 2 ids. -/
theorem select_per_cluster_spec_concrete :
    (selectFor [(4, 0), (2, 0), (7, 1), (1, 0)] 0 2).length =
      min (Int.toNat 2) (clusterMembers [(4, 0), (2, 0), (7, 1), (1, 0)] 0).length :=
  (select_per_cluster_spec [(4, 0), (2, 0), (7, 1), (1, 0)] 0 2).1

/-- C6: the cluster operation for kmeans or agglomerative does not depend
on per-run entropy — two runs on an identical feature matrix and config
produce identical assignments (kmeans draws from the fixed documented seed,
agglomerative is seedless). -/
theorem cluster_rerun_deterministic (algo : ClusterAlgo) (k : Nat) (eps : ℚ)
    (minS : Nat) (rows : List (List ℚ)) (s1 s2 : Nat)
    (h : algo = ClusterAlgo.kmeans ∨ algo = ClusterAlgo.agglomerative) :
    clusterAssignOf algo k eps minS rows s1 =
      clusterAssignOf algo k eps minS rows s2 := by
  rcases h with rfl | rfl <;> rfl

/-- Instantiation of C6: a kmeans re-run with different ambient entropy
gives the same assignment on a concrete two-point matrix. -/
theorem cluster_rerun_deterministic_concrete :
    clusterAssignOf ClusterAlgo.kmeans 2 1 1 [[(0 : ℚ)], [1]] 0 =
      clusterAssignOf ClusterAlgo.kmeans 2 1 1 [[(0 : ℚ)], [1]] 99 :=
  cluster_rerun_deterministic ClusterAlgo.kmeans 2 1 1 [[(0 : ℚ)], [1]] 0 99
    (Or.inl rfl)

/-- C5: an operation that fails with any error kind hands back the Result
Store exactly as it found it — no partial state is committed. -/
theorem failed_run_leaves_store_intact (corpus : List CandidateProfile)
    (st : ResultStore) (op : Op) (e : EngineError)
    (h : (applyOp corpus st op).2 = Except.error e) :
    (applyOp corpus st op).1 = st := by
  cases op with
  | search a kw c =>
    simp only [applyOp] at h ⊢
    cases hs : searchOp corpus a kw c with
    | error e2 => simp [hs]
    | ok r => rw [hs] at h; simp at h
  | runClustering contended cfg =>
    simp only [applyOp] at h ⊢
    by_cases hcont : contended = true
    · simp [hcont]
    · simp only [hcont, if_false, Bool.false_eq_true] at h ⊢
      cases hc : clusterRunResult corpus cfg 0 with
      | error e2 => simp [hc]
      | ok res => rw [hc] at h; simp at h
  | submitSelection counts =>
    simp only [applyOp] at h ⊢
    cases ha : st.latestAssignment with
    | none => simp [ha]
    | some assignment => rw [ha] at h; simp at h
  | totalQuery => simp [applyOp] at h

/-- Instantiation of C5 at a concrete rejected search (unrecognized
algorithm name) against the initial store. -/
theorem failed_run_leaves_store_intact_concrete :
    (applyOp [] initialStore (Op.search "foo" "" 1)).1 = initialStore :=
  failed_run_leaves_store_intact [] initialStore (Op.search "foo" "" 1)
    EngineError.invalidAlgorithm rfl

/-! ## Helper lemmas: traversal invariants -/

/-- Any head of the ranked sort of a filtered pool satisfies the filter. -/
theorem head_filter_pred {kw : String} {p : CandidateProfile → Bool}
    {l : List CandidateProfile} {x : CandidateProfile}
    (h : (List.insertionSort (seedRank kw) (l.filter p)).head? = some x) :
    p x = true := by
  have hx := List.mem_of_mem_head? h
  have hm := (List.perm_insertionSort _ _).mem_iff.mp hx
  exact (List.mem_filter.mp hm).2

/-- A neighbor produced by `bestStrictNeighbor` has not been visited. -/
theorem bestStrictNeighbor_not_visited {corpus : List CandidateProfile}
    {kw : String} {visited : List Nat} {c nxt : CandidateProfile}
    (h : bestStrictNeighbor corpus kw visited c = some nxt) :
    nxt.id ∉ visited := by
  have hp := @head_filter_pred kw _ _ _ h
  simp only [Bool.and_eq_true, Bool.not_eq_eq_eq_not, Bool.not_true] at hp
  simpa using hp.1.2

/-- A seed produced by `nextSeed` has not been visited. -/
theorem nextSeed_not_visited {corpus : List CandidateProfile} {kw : String}
    {visited : List Nat} {s : CandidateProfile}
    (h : nextSeed corpus kw visited = some s) : s.id ∉ visited := by
  have hp := @head_filter_pred kw _ _ _ h
  simp only [Bool.not_eq_eq_eq_not, Bool.not_true] at hp
  simpa using hp

/-- The BFS/DFS worklist loop keeps the result duplicate-free and capped at
`count`, whatever the fuel and worklist. -/
theorem traverseLoop_inv (corpus : List CandidateProfile) (kw : String)
    (count : Nat) (depthFirst : Bool) (fuel : Nat) :
    ∀ (work : List CandidateProfile) (acc : List Nat),
      acc.Nodup → acc.length ≤ count →
      (traverseLoop corpus kw count depthFirst fuel work acc).Nodup ∧
        (traverseLoop corpus kw count depthFirst fuel work acc).length ≤ count := by
  induction fuel with
  | zero =>
    intro work acc h1 h2
    simpa [traverseLoop] using ⟨h1, h2⟩
  | succ fuel ih =>
    intro work acc h1 h2
    cases work with
    | nil => simpa [traverseLoop] using ⟨h1, h2⟩
    | cons cand rest =>
      simp only [traverseLoop]
      by_cases hstop : count ≤ acc.length
      · simpa [hstop] using ⟨h1, h2⟩
      · simp only [hstop, if_false]
        by_cases hmem : cand.id ∈ acc
        · simpa [hmem] using ih rest acc h1 h2
        · simp only [hmem, if_false]
          exact ih _ (acc ++ [cand.id])
            (by simp [List.nodup_append, h1, hmem])
            (by simp only [List.length_append, List.length_cons,
                  List.length_nil]; omega)

/-- A single climb keeps the result duplicate-free and capped at `count`,
provided the current candidate is unvisited. -/
theorem climbLoop_inv (corpus : List CandidateProfile) (kw : String)
    (count : Nat) (fuel : Nat) :
    ∀ (c : CandidateProfile) (acc : List Nat),
      acc.Nodup → c.id ∉ acc → acc.length ≤ count →
      (climbLoop corpus kw count fuel c acc).Nodup ∧
        (climbLoop corpus kw count fuel c acc).length ≤ count := by
  induction fuel with
  | zero =>
    intro c acc h1 h2 h3
    simpa [climbLoop] using ⟨h1, h3⟩
  | succ fuel ih =>
    intro c acc h1 h2 h3
    simp only [climbLoop]
    by_cases hstop : count ≤ acc.length
    · simpa [hstop] using ⟨h1, h3⟩
    · simp only [hstop, if_false]
      cases hb : bestStrictNeighbor corpus kw (acc ++ [c.id]) c with
      | none =>
        refine ⟨by simp [List.nodup_append, h1, h2], ?_⟩
        simp only [List.length_append, List.length_cons, List.length_nil]
        omega
      | some nxt =>
        exact ih nxt (acc ++ [c.id])
          (by simp [List.nodup_append, h1, h2])
          (bestStrictNeighbor_not_visited hb)
          (by simp only [List.length_append, List.length_cons,
                List.length_nil]; omega)

/-- The outer climbing loop keeps the result duplicate-free and capped. -/
theorem hillLoop_inv (corpus : List CandidateProfile) (kw : String)
    (count : Nat) (fuel : Nat) :
    ∀ (acc : List Nat), acc.Nodup → acc.length ≤ count →
      (hillLoop corpus kw count fuel acc).Nodup ∧
        (hillLoop corpus kw count fuel acc).length ≤ count := by
  induction fuel with
  | zero =>
    intro acc h1 h2
    simpa [hillLoop] using ⟨h1, h2⟩
  | succ fuel ih =>
    intro acc h1 h2
    simp only [hillLoop]
    by_cases hstop : count ≤ acc.length
    · simpa [hstop] using ⟨h1, h2⟩
    · simp only [hstop, if_false]
      cases hs : nextSeed corpus kw acc with
      | none => exact ⟨h1, h2⟩
      | some s =>
        have hc := climbLoop_inv corpus kw count (corpus.length + 1) s acc
          h1 (nextSeed_not_visited hs) h2
        exact ih _ hc.1 hc.2

/-! ## Claim theorems: search results -/

/-- C3: every successful search with a positive count returns an id
sequence of length at most `count` with no duplicate ids, for each of the
three traversal strategies. -/
theorem search_result_capped_nodup (corpus : List CandidateProfile)
    (algoStr kw : String) (count : Int) (r : List Nat)
    (hcount : 1 ≤ count)
    (h : searchOp corpus algoStr kw count = Except.ok r) :
    r.length ≤ count.toNat ∧ r.Nodup := by
  unfold searchOp at h
  cases hp : parseSearchAlgo algoStr with
  | none => rw [hp] at h; cases h
  | some a =>
    rw [hp] at h
    simp only [if_neg (by omega : ¬count < 1)] at h
    injection h with h
    subst h
    cases a with
    | bfs =>
      have hinv := traverseLoop_inv corpus kw count.toNat false
        (searchFuel corpus) (rankedSeeds corpus kw) [] (by simp) (by simp)
      exact ⟨hinv.2, hinv.1⟩
    | dfs =>
      have hinv := traverseLoop_inv corpus kw count.toNat true
        (searchFuel corpus) (rankedSeeds corpus kw) [] (by simp) (by simp)
      exact ⟨hinv.2, hinv.1⟩
    | hill_climb =>
      have hinv := hillLoop_inv corpus kw count.toNat (corpus.length + 1) []
        (by simp) (by simp)
      exact ⟨hinv.2, hinv.1⟩

/-- Instantiation of C3 at a concrete three-candidate corpus and a bfs
query with count 2. -/
theorem search_result_capped_nodup_concrete :
    ([1, 2] : List Nat).length ≤ (2 : Int).toNat ∧ ([1, 2] : List Nat).Nodup :=
  search_result_capped_nodup
    [⟨1, ["python"], [("python", 1)]⟩,
     ⟨2, ["python", "sql"], [("python", 1), ("sql", 1)]⟩,
     ⟨3, ["sql"], [("sql", 1)]⟩]
    "bfs" "python" 2 [1, 2] (by decide) (by rfl)

/-- C8: a hill-climbing search never revisits a candidate, within or
across climbs — its result sequence carries no duplicate id, for any
corpus, keyword and count. -/
theorem hill_climb_never_revisits (corpus : List CandidateProfile)
    (kw : String) (count : Nat) :
    (runSearchAlgo corpus SearchAlgo.hill_climb kw count).Nodup :=
  (hillLoop_inv corpus kw count (corpus.length + 1) [] (by simp) (by simp)).1

/-! ## Helper lemmas: total-count bookkeeping -/

/-- One step of `insertNew`. -/
theorem insertNew_cons (s : List Nat) (x : Nat) (t : List Nat) :
    insertNew s (x :: t) = insertNew (if x ∈ s then s else s ++ [x]) t := rfl

/-- `insertNew` preserves freedom from duplicates. -/
theorem insertNew_nodup (xs : List Nat) :
    ∀ seen : List Nat, seen.Nodup → (insertNew seen xs).Nodup := by
  induction xs with
  | nil => intro s h; exact h
  | cons x t ih =>
    intro s h
    rw [insertNew_cons]
    by_cases hx : x ∈ s
    · rw [if_pos hx]; exact ih s h
    · rw [if_neg hx]; exact ih _ (by simp [List.nodup_append, h, hx])

/-- `insertNew` accumulates exactly the union of the id sets. -/
theorem insertNew_toFinset (xs : List Nat) :
    ∀ seen : List Nat,
      (insertNew seen xs).toFinset = seen.toFinset ∪ xs.toFinset := by
  induction xs with
  | nil => intro s; simp [insertNew]
  | cons x t ih =>
    intro s
    rw [insertNew_cons, ih]
    by_cases hx : x ∈ s
    · rw [if_pos hx]
      simp only [List.toFinset_cons]
      ext a
      simp only [Finset.mem_union, List.mem_toFinset, Finset.mem_insert]
      constructor
      · tauto
      · rintro (h | rfl | h)
        · exact Or.inl h
        · exact Or.inl hx
        · exact Or.inr h
    · rw [if_neg hx]
      simp only [List.toFinset_append, List.toFinset_cons, List.toFinset_nil]
      ext a
      simp only [Finset.mem_union, List.mem_toFinset, Finset.mem_insert,
        Finset.mem_singleton, Finset.not_mem_empty, or_false]
      tauto

/-- `insertNew` never shrinks the seen list. -/
theorem insertNew_length_le (xs : List Nat) :
    ∀ seen : List Nat, seen.length ≤ (insertNew seen xs).length := by
  induction xs with
  | nil => intro s; exact Nat.le_refl _
  | cons x t ih =>
    intro s
    rw [insertNew_cons]
    by_cases hx : x ∈ s
    · rw [if_pos hx]; exact ih s
    · rw [if_neg hx]
      exact Nat.le_trans (by simp) (ih (s ++ [x]))

/-- Each operation extends the seen ids with exactly what it surfaced. -/
theorem runOp_seenIds (corpus : List CandidateProfile) (st : ResultStore)
    (op : Op) :
    (runOp corpus st op).seenIds =
      insertNew st.seenIds (searchReturned corpus op) := by
  cases op with
  | search a kw c =>
    simp only [runOp, applyOp, searchReturned]
    cases hs : searchOp corpus a kw c with
    | error e => simp [insertNew]
    | ok r => simp
  | runClustering contended cfg =>
    simp only [runOp, applyOp, searchReturned]
    by_cases hcont : contended = true
    · simp [hcont, insertNew]
    · simp only [hcont, if_false, Bool.false_eq_true]
      cases hc : clusterRunResult corpus cfg 0 with
      | error e => simp [insertNew]
      | ok res => simp [insertNew]
  | submitSelection counts =>
    simp only [runOp, applyOp, searchReturned]
    cases ha : st.latestAssignment <;> simp [insertNew]
  | totalQuery => simp [runOp, applyOp, searchReturned, insertNew]

/-- The seen ids after a trace are the fold of the surfaced id lists. -/
theorem foldTrace_seenIds (corpus : List CandidateProfile) (ops : List Op) :
    ∀ st : ResultStore,
      ((ops.foldl (runOp corpus) st).seenIds) =
        (ops.map (searchReturned corpus)).foldl insertNew st.seenIds := by
  induction ops with
  | nil => intro st; rfl
  | cons op t ih =>
    intro st
    simp only [List.foldl_cons, List.map_cons]
    rw [ih, runOp_seenIds]

/-- Folding `insertNew` collects the union of all surfaced id sets. -/
theorem foldl_insertNew_toFinset (rs : List (List Nat)) :
    ∀ s : List Nat,
      (rs.foldl insertNew s).toFinset = s.toFinset ∪ rs.flatten.toFinset := by
  induction rs with
  | nil => intro s; simp
  | cons r t ih =>
    intro s
    simp only [List.foldl_cons, List.flatten_cons, ih, insertNew_toFinset,
      List.toFinset_append]
    rw [Finset.union_assoc]

/-- Folding `insertNew` keeps the seen list duplicate-free. -/
theorem foldl_insertNew_nodup (rs : List (List Nat)) :
    ∀ s : List Nat, s.Nodup → (rs.foldl insertNew s).Nodup := by
  induction rs with
  | nil => intro s h; exact h
  | cons r t ih => intro s h; exact ih _ (insertNew_nodup r s h)

/-! ## Claim theorem: the total-count view -/

/-- C7: after any operation trace the stored total equals the number of
distinct candidates ever returned by search across all runs, and no single
operation ever decreases the total-count view. -/
theorem total_count_cumulative_and_monotone :
    (∀ (corpus : List CandidateProfile) (ops : List Op),
        totalCount (runTrace corpus ops) =
          ((ops.map (searchReturned corpus)).flatten).toFinset.card) ∧
      (∀ (corpus : List CandidateProfile) (st : ResultStore) (op : Op),
        totalCount st ≤ totalCount (runOp corpus st op)) := by
  constructor
  · intro corpus ops
    have h2 : ((ops.map (searchReturned corpus)).foldl insertNew []).Nodup :=
      foldl_insertNew_nodup _ [] (by simp)
    have h3 := foldl_insertNew_toFinset (ops.map (searchReturned corpus)) []
    rw [totalCount, runTrace, foldTrace_seenIds]
    have hinit : initialStore.seenIds = [] := rfl
    rw [hinit, ← List.toFinset_card_of_nodup h2, h3]
    simp
  · intro corpus st op
    rw [totalCount, totalCount, runOp_seenIds]
    exact insertNew_length_le _ _

end CVApp
